import Mathlib

/-!
Shallow embedding of the kyokki backend's receipt-to-inventory pipeline.

Quantities (SQL `Numeric`, Python `Decimal`) are modelled as rationals `ℚ`;
calendar dates are modelled as integers (day numbers), so `timedelta(days=n)`
addition becomes integer addition.  UUIDs are modelled as `Nat` identifiers.
Fallible code returns `Except`/`Option`; mutation of a database row is
explicit state passing of the row value.
-/

namespace Kyokki

/-- Embedding of the SQLAlchemy model `InventoryItem`
(src/backend/app/models/inventory_item.py).  Every column of the table is a
field, so equality of two `InventoryItem` values states that every field of
the row agrees. -/
structure InventoryItem where
  id : Nat
  product_master_id : Nat
  receipt_id : Option Nat
  initial_quantity : ℚ
  current_quantity : ℚ
  unit : String
  status : String
  purchase_date : Option ℤ
  expiry_date : ℤ
  expiry_source : String
  opened_date : Option ℤ
  batch_number : Option String
  location : String
  notes : Option String
  created_at : ℤ
  consumed_at : Option ℤ
deriving Repr, DecidableEq

/-- The `ValueError` raised by `consume_inventory_item` when the requested
quantity exceeds the current quantity; the Python message interpolates the
requested and available amounts, which the structure carries. -/
structure InsufficientQuantity where
  requested : ℚ
  available : ℚ
deriving Repr, DecidableEq

/-- Embedding of `consume_inventory_item`
(src/backend/app/crud/inventory_item.py, lines 134-180), state-passing style:
the second component of the result is the database row after the call
(unchanged when the `ValueError` is raised, since the raise precedes every
assignment), the first component is the raised error, if any.  `today` is the
value of `date.today()` at the call. -/
def consume_inventory_item (today : ℤ) (item : InventoryItem) (quantity : ℚ) :
    Option InsufficientQuantity × InventoryItem :=
  if quantity > item.current_quantity then
    (some ⟨quantity, item.current_quantity⟩, item)
  else
    let new_quantity := item.current_quantity - quantity
    let item1 : InventoryItem := { item with current_quantity := new_quantity }
    if new_quantity = 0 then
      (none, { item1 with status := "empty" })
    else if new_quantity < item1.initial_quantity then
      let item2 : InventoryItem :=
        if item1.status = "sealed" then { item1 with opened_date := some today } else item1
      if new_quantity / item2.initial_quantity * 100 < 75 then
        (none, { item2 with status := "partial" })
      else
        (none, { item2 with status := "opened" })
    else
      (none, item1)

/-- Embedding of the HTTP layer of `POST /inventory/{id}/consume`
(src/backend/app/api/endpoints/inventory.py, lines 172-204): a `ValueError`
from the CRUD layer is surfaced as HTTP 400, success as HTTP 200 with the
updated item.  The pair's second component is the database row after the
request. -/
def consume_endpoint (today : ℤ) (item : InventoryItem) (quantity : ℚ) :
    (Nat × Option InventoryItem) × InventoryItem :=
  match consume_inventory_item today item quantity with
  | (some _, st) => ((400, none), st)
  | (none, st) => ((200, some st), st)

/-- Embedding of the catalog row `ProductMaster`
(src/backend/app/models/product_master.py), restricted to the fields the
pipeline reads. -/
structure ProductMaster where
  id : Nat
  canonical_name : String
  default_shelf_life_days : ℤ
deriving Repr, DecidableEq

/-- Embedding of the request schema `ConfirmedItemCreate`
(src/backend/app/schemas/receipt.py). -/
structure ConfirmedItemCreate where
  product_id : Nat
  quantity : ℚ
  unit : String
  purchase_date : ℤ
deriving Repr, DecidableEq

/-- Embedding of the response schema `ReceiptConfirmResponse`. -/
structure ReceiptConfirmResponse where
  success : Bool
  items_created : Nat
  error : Option String
deriving Repr, DecidableEq

/-- An HTTP error raised by an endpoint (FastAPI `HTTPException`). -/
structure HTTPError where
  status_code : Nat
  detail : String
deriving Repr, DecidableEq

/-- The keyword arguments passed to the `InventoryItem(...)` constructor in
`confirm_receipt` (src/backend/app/api/endpoints/receipts.py, lines
225-236); the remaining columns are filled by database defaults. -/
structure InventoryRowInit where
  product_master_id : Nat
  receipt_id : Option Nat
  initial_quantity : ℚ
  current_quantity : ℚ
  unit : String
  status : String
  purchase_date : ℤ
  expiry_date : ℤ
  expiry_source : String
  location : String
deriving Repr, DecidableEq

/-- Committed database state seen by the confirm endpoint: the receipt's
`processing_status` and the inventory rows created from receipts.  Pending
(uncommitted) session changes are never part of this state; `commit`
publishes them, and a session that closes after an exception discards
them. -/
structure DBState where
  receipt_status : String
  inventory_rows : List InventoryRowInit
deriving Repr, DecidableEq

/-- The `InventoryItem(...)` construction for one confirmed item in
`confirm_receipt`: expiry is `purchase_date + product.default_shelf_life_days`
days, provenance `calculated`, status `sealed`, default location, quantity
copied to both initial and current, receipt back-reference set. -/
def mkInventoryRow (receipt_id : Nat) (p : ProductMaster)
    (it : ConfirmedItemCreate) : InventoryRowInit :=
  { product_master_id := it.product_id,
    receipt_id := some receipt_id,
    initial_quantity := it.quantity,
    current_quantity := it.quantity,
    unit := it.unit,
    status := "sealed",
    purchase_date := it.purchase_date,
    expiry_date := it.purchase_date + p.default_shelf_life_days,
    expiry_source := "calculated",
    location := "main_fridge" }

/-- The catalog lookup `select(ProductMaster).where(ProductMaster.id ==
item.product_id)` with `scalar_one_or_none()`. -/
def findProduct (catalog : List ProductMaster) (pid : Nat) : Option ProductMaster :=
  catalog.find? (fun p => p.id = pid)

/-- The per-item loop of `confirm_receipt` (receipts.py, lines 209-239):
items are processed in order, the first missing product raises
`HTTPException 400` and aborts; otherwise it returns the rows added to the
session. -/
def confirmLoop (catalog : List ProductMaster) (receipt_id : Nat) :
    List ConfirmedItemCreate → Except HTTPError (List InventoryRowInit)
  | [] => .ok []
  | it :: rest =>
    match findProduct catalog it.product_id with
    | none => .error ⟨400, "Product " ++ toString it.product_id ++ " not found"⟩
    | some p =>
      match confirmLoop catalog receipt_id rest with
      | .error e => .error e
      | .ok rows => .ok (mkInventoryRow receipt_id p it :: rows)

/-- Embedding of `POST /receipts/{id}/confirm` (receipts.py, lines 174-268)
after the receipt has been fetched.  On success the commit publishes the new
rows and sets the receipt's status to `confirmed`; on an `HTTPException`
(missing product) the exception is re-raised before any commit, so the
session's pending rows are discarded and the committed state is returned
unchanged. -/
def confirm_receipt (catalog : List ProductMaster) (receipt_id : Nat)
    (items : List ConfirmedItemCreate) (st : DBState) :
    Except HTTPError ReceiptConfirmResponse × DBState :=
  match confirmLoop catalog receipt_id items with
  | .error e => (.error e, st)
  | .ok rows =>
    (.ok { success := true, items_created := rows.length, error := none },
     { receipt_status := "confirmed", inventory_rows := st.inventory_rows ++ rows })

/-- A concrete sealed inventory item used by witness statements. -/
def sampleItem : InventoryItem :=
  { id := 1, product_master_id := 1, receipt_id := some 1,
    initial_quantity := 4, current_quantity := 4, unit := "pcs",
    status := "sealed", purchase_date := some 0, expiry_date := 10,
    expiry_source := "calculated", opened_date := none, batch_number := none,
    location := "main_fridge", notes := none, created_at := 0, consumed_at := none }

/-- C1: for `0 < q ≤ current_quantity`, consume succeeds, subtracts `q` from
`current_quantity`; a zero result makes the status `empty` regardless of the
prior status; a nonzero result below `initial_quantity` stamps `opened_date`
on a previously sealed item and sets the status to `partial` when the
remaining fraction is below 75% and to `opened` otherwise (exactly 75%
remaining yields `opened`). -/
theorem consume_ok_spec (today : ℤ) (item : InventoryItem) (q : ℚ)
    (hpos : 0 < q) (hle : q ≤ item.current_quantity) :
    ∃ item', consume_inventory_item today item q = (none, item') ∧
      item'.current_quantity = item.current_quantity - q ∧
      (item.current_quantity - q = 0 → item'.status = "empty") ∧
      (item.current_quantity - q ≠ 0 → item.current_quantity - q < item.initial_quantity →
        ((item.status = "sealed" → item'.opened_date = some today) ∧
         ((item.current_quantity - q) / item.initial_quantity < 75/100 →
            item'.status = "partial") ∧
         (¬ (item.current_quantity - q) / item.initial_quantity < 75/100 →
            item'.status = "opened"))) := by
  have hng : ¬ (q > item.current_quantity) := not_lt.mpr hle
  have hthr : ∀ x : ℚ, x * 100 < 75 ↔ x < 75/100 := by
    intro x; constructor <;> intro h <;> linarith
  simp only [consume_inventory_item, if_neg hng]
  by_cases h0 : item.current_quantity - q = 0
  · simp only [if_pos h0]
    exact ⟨_, rfl, rfl, fun _ => rfl, fun hne _ => absurd h0 hne⟩
  · simp only [if_neg h0]
    by_cases hlt : item.current_quantity - q < item.initial_quantity
    · simp only [if_pos hlt]
      by_cases hs : item.status = "sealed"
      · simp only [if_pos hs]
        by_cases hp : (item.current_quantity - q) / item.initial_quantity < 75/100
        · have hp' : (item.current_quantity - q) / item.initial_quantity * 100 < 75 :=
            (hthr _).mpr hp
          simp only [if_pos hp']
          exact ⟨_, rfl, rfl, fun h => absurd h h0,
            fun _ _ => ⟨fun _ => rfl, fun _ => rfl, fun hc => absurd hp hc⟩⟩
        · have hp' : ¬ (item.current_quantity - q) / item.initial_quantity * 100 < 75 :=
            fun hc => hp ((hthr _).mp hc)
          simp only [if_neg hp']
          exact ⟨_, rfl, rfl, fun h => absurd h h0,
            fun _ _ => ⟨fun _ => rfl, fun hc => absurd hc hp, fun _ => rfl⟩⟩
      · simp only [if_neg hs]
        by_cases hp : (item.current_quantity - q) / item.initial_quantity < 75/100
        · have hp' : (item.current_quantity - q) / item.initial_quantity * 100 < 75 :=
            (hthr _).mpr hp
          simp only [if_pos hp']
          exact ⟨_, rfl, rfl, fun h => absurd h h0,
            fun _ _ => ⟨fun h => absurd h hs, fun _ => rfl, fun hc => absurd hp hc⟩⟩
        · have hp' : ¬ (item.current_quantity - q) / item.initial_quantity * 100 < 75 :=
            fun hc => hp ((hthr _).mp hc)
          simp only [if_neg hp']
          exact ⟨_, rfl, rfl, fun h => absurd h h0,
            fun _ _ => ⟨fun h => absurd h hs, fun hc => absurd hc hp, fun _ => rfl⟩⟩
    · simp only [if_neg hlt]
      exact ⟨_, rfl, rfl, fun h => absurd h h0, fun _ hc => absurd hc hlt⟩

/-- Witness for `consume_ok_spec`: consuming 1 of 4 from a sealed item of
initial quantity 4 leaves 3 of 4 = 75% remaining, hence status `opened`. -/
theorem consume_ok_spec_witness :
    (0 : ℚ) < 1 ∧ (1 : ℚ) ≤ sampleItem.current_quantity ∧
    ∃ item', consume_inventory_item 7 sampleItem 1 = (none, item') ∧
      item'.current_quantity = sampleItem.current_quantity - 1 ∧
      (sampleItem.current_quantity - 1 = 0 → item'.status = "empty") ∧
      (sampleItem.current_quantity - 1 ≠ 0 →
        sampleItem.current_quantity - 1 < sampleItem.initial_quantity →
        ((sampleItem.status = "sealed" → item'.opened_date = some 7) ∧
         ((sampleItem.current_quantity - 1) / sampleItem.initial_quantity < 75/100 →
            item'.status = "partial") ∧
         (¬ (sampleItem.current_quantity - 1) / sampleItem.initial_quantity < 75/100 →
            item'.status = "opened"))) :=
  ⟨by norm_num, by norm_num [sampleItem],
    consume_ok_spec 7 sampleItem 1 (by norm_num) (by norm_num [sampleItem])⟩

/-- C2: consuming more than `current_quantity` raises `InsufficientQuantity`
(carrying the requested and available amounts), the HTTP endpoint surfaces it
as status 400, and the item's row — every field — is left unmodified. -/
theorem consume_insufficient_spec (today : ℤ) (item : InventoryItem) (q : ℚ)
    (h : item.current_quantity < q) :
    consume_inventory_item today item q = (some ⟨q, item.current_quantity⟩, item) ∧
    consume_endpoint today item q = ((400, none), item) := by
  have h' : q > item.current_quantity := h
  refine ⟨?_, ?_⟩
  · simp only [consume_inventory_item, if_pos h']
  · simp only [consume_endpoint, consume_inventory_item, if_pos h']

/-- Witness for `consume_insufficient_spec`: consuming 5 from an item holding
4 fails with a 400 and leaves the row untouched. -/
theorem consume_insufficient_spec_witness :
    sampleItem.current_quantity < 5 ∧
    consume_inventory_item 7 sampleItem 5 = (some ⟨5, sampleItem.current_quantity⟩, sampleItem) ∧
    consume_endpoint 7 sampleItem 5 = ((400, none), sampleItem) :=
  ⟨by norm_num [sampleItem], consume_insufficient_spec 7 sampleItem 5 (by norm_num [sampleItem])⟩

/-- C10: consuming a sealed item's entire quantity in one call (with
`current_quantity = initial_quantity`) yields status `empty` with
`opened_date` untouched; in general `opened_date` changes only on a call
that leaves a positive quantity strictly below `initial_quantity`, and then
only from a `sealed` status, stamping `today`. -/
theorem consume_empty_never_stamps (today : ℤ) (item : InventoryItem) (q : ℚ)
    (hs : item.status = "sealed") (hq : q = item.current_quantity)
    (hi : item.current_quantity = item.initial_quantity) :
    (∃ item', consume_inventory_item today item q = (none, item') ∧
      item'.status = "empty" ∧ item'.opened_date = item.opened_date) ∧
    (∀ (it it' : InventoryItem) (q' : ℚ),
      consume_inventory_item today it q' = (none, it') →
      it'.opened_date ≠ it.opened_date →
      it.status = "sealed" ∧ it'.opened_date = some today ∧
      0 < it.current_quantity - q' ∧ it.current_quantity - q' < it.initial_quantity) := by
  constructor
  · have hng : ¬ (q > item.current_quantity) := not_lt.mpr (le_of_eq hq)
    have h0 : item.current_quantity - q = 0 := by rw [hq]; ring
    simp only [consume_inventory_item, if_neg hng, if_pos h0]
    exact ⟨_, rfl, rfl, rfl⟩
  · intro it it' q' hrun hne
    by_cases hgt : q' > it.current_quantity
    · simp only [consume_inventory_item, if_pos hgt] at hrun
      exact absurd (congrArg Prod.fst hrun) (by simp)
    · simp only [consume_inventory_item, if_neg hgt] at hrun
      have hge : 0 ≤ it.current_quantity - q' := by
        have := not_lt.mp hgt; linarith
      by_cases h0 : it.current_quantity - q' = 0
      · rw [if_pos h0] at hrun
        have : it' = { { it with current_quantity := it.current_quantity - q' }
            with status := "empty" } := by
          exact (Prod.mk.injEq _ _ _ _ ▸ hrun).2.symm
        rw [this] at hne
        exact absurd rfl hne
      · rw [if_neg h0] at hrun
        by_cases hlt : it.current_quantity - q' < it.initial_quantity
        · rw [if_pos hlt] at hrun
          by_cases hs' : it.status = "sealed"
          · rw [if_pos hs'] at hrun
            by_cases hp : (it.current_quantity - q') / it.initial_quantity * 100 < 75
            · rw [if_pos hp] at hrun
              have : it'.opened_date = some today := by
                have := (Prod.mk.injEq _ _ _ _ ▸ hrun).2
                rw [← this]
              exact ⟨hs', this, lt_of_le_of_ne hge (Ne.symm h0), hlt⟩
            · rw [if_neg hp] at hrun
              have : it'.opened_date = some today := by
                have := (Prod.mk.injEq _ _ _ _ ▸ hrun).2
                rw [← this]
              exact ⟨hs', this, lt_of_le_of_ne hge (Ne.symm h0), hlt⟩
          · rw [if_neg hs'] at hrun
            by_cases hp : (it.current_quantity - q') / it.initial_quantity * 100 < 75
            · rw [if_pos hp] at hrun
              have : it' = { { it with current_quantity := it.current_quantity - q' }
                  with status := "partial" } := (Prod.mk.injEq _ _ _ _ ▸ hrun).2.symm
              rw [this] at hne
              exact absurd rfl hne
            · rw [if_neg hp] at hrun
              have : it' = { { it with current_quantity := it.current_quantity - q' }
                  with status := "opened" } := (Prod.mk.injEq _ _ _ _ ▸ hrun).2.symm
              rw [this] at hne
              exact absurd rfl hne
        · rw [if_neg hlt] at hrun
          have : it' = { it with current_quantity := it.current_quantity - q' } :=
            (Prod.mk.injEq _ _ _ _ ▸ hrun).2.symm
          rw [this] at hne
          exact absurd rfl hne

/-- Witness for `consume_empty_never_stamps`: draining the sealed
`sampleItem` (4 of 4) in one call gives `empty` with no opened date. -/
theorem consume_empty_never_stamps_witness :
    sampleItem.status = "sealed" ∧ (4 : ℚ) = sampleItem.current_quantity ∧
    sampleItem.current_quantity = sampleItem.initial_quantity ∧
    ((∃ item', consume_inventory_item 7 sampleItem 4 = (none, item') ∧
      item'.status = "empty" ∧ item'.opened_date = sampleItem.opened_date) ∧
    (∀ (it it' : InventoryItem) (q' : ℚ),
      consume_inventory_item 7 it q' = (none, it') →
      it'.opened_date ≠ it.opened_date →
      it.status = "sealed" ∧ it'.opened_date = some 7 ∧
      0 < it.current_quantity - q' ∧ it.current_quantity - q' < it.initial_quantity)) :=
  ⟨rfl, by norm_num [sampleItem], by norm_num [sampleItem],
    consume_empty_never_stamps 7 sampleItem 4 rfl (by norm_num [sampleItem])
      (by norm_num [sampleItem])⟩

/-- If every requested product id resolves in the catalog, the confirm loop
returns one row per item, each built by `mkInventoryRow` from its resolved
product. -/
theorem confirmLoop_ok_of_found (catalog : List ProductMaster) (rid : Nat)
    (items : List ConfirmedItemCreate)
    (h : ∀ it ∈ items, (findProduct catalog it.product_id).isSome) :
    ∃ rows, confirmLoop catalog rid items = .ok rows ∧
      List.Forall₂ (fun (it : ConfirmedItemCreate) (row : InventoryRowInit) =>
        ∃ p, findProduct catalog it.product_id = some p ∧ row = mkInventoryRow rid p it)
        items rows := by
  induction items with
  | nil => exact ⟨[], rfl, List.Forall₂.nil⟩
  | cons it rest ih =>
    have hit : (findProduct catalog it.product_id).isSome :=
      h it (List.mem_cons_self it rest)
    obtain ⟨p, hp⟩ := Option.isSome_iff_exists.mp hit
    obtain ⟨rows, hrows, hall⟩ := ih (fun x hx => h x (List.mem_cons_of_mem it hx))
    refine ⟨mkInventoryRow rid p it :: rows, ?_, ?_⟩
    · simp only [confirmLoop, hp, hrows]
    · exact List.Forall₂.cons ⟨p, hp, rfl⟩ hall

/-- C3: when every referenced product id exists in the catalog, confirmation
succeeds, sets the receipt to `confirmed`, appends one inventory row per
request item, and each created row has `expiry_date = purchase_date +
default_shelf_life_days`, `expiry_source = "calculated"`, status `sealed`,
initial and current quantity equal to the requested quantity, the receipt
back-reference, and the default location `main_fridge`. -/
theorem confirm_creates_calculated_rows (catalog : List ProductMaster) (rid : Nat)
    (items : List ConfirmedItemCreate) (st : DBState)
    (h : ∀ it ∈ items, (findProduct catalog it.product_id).isSome) :
    ∃ rows, confirm_receipt catalog rid items st =
        (.ok { success := true, items_created := items.length, error := none },
         { receipt_status := "confirmed", inventory_rows := st.inventory_rows ++ rows }) ∧
      List.Forall₂ (fun (it : ConfirmedItemCreate) (row : InventoryRowInit) =>
        ∃ p, findProduct catalog it.product_id = some p ∧
          row.expiry_date = it.purchase_date + p.default_shelf_life_days ∧
          row.expiry_source = "calculated" ∧
          row.status = "sealed" ∧
          row.initial_quantity = it.quantity ∧
          row.current_quantity = it.quantity ∧
          row.unit = it.unit ∧
          row.purchase_date = it.purchase_date ∧
          row.receipt_id = some rid ∧
          row.location = "main_fridge") items rows := by
  obtain ⟨rows, hrows, hall⟩ := confirmLoop_ok_of_found catalog rid items h
  have hlen : rows.length = items.length := (List.Forall₂.length_eq hall).symm
  refine ⟨rows, ?_, ?_⟩
  · simp only [confirm_receipt, hrows, hlen]
  · refine hall.imp ?_
    rintro it row ⟨p, hp, rfl⟩
    exact ⟨p, hp, rfl, rfl, rfl, rfl, rfl, rfl, rfl, rfl, rfl⟩

/-- A concrete catalog and request used by the confirm witnesses. -/
def sampleCatalog : List ProductMaster :=
  [{ id := 10, canonical_name := "Milk", default_shelf_life_days := 7 }]

/-- A concrete confirm-request item referencing `sampleCatalog`. -/
def sampleConfirmItem : ConfirmedItemCreate :=
  { product_id := 10, quantity := 2, unit := "pcs", purchase_date := 100 }

/-- Witness for `confirm_creates_calculated_rows`: one item bought on day 100
with shelf life 7 creates a sealed calculated row expiring on day 107. -/
theorem confirm_creates_calculated_rows_witness :
    (∀ it ∈ [sampleConfirmItem], (findProduct sampleCatalog it.product_id).isSome) ∧
    ∃ rows, confirm_receipt sampleCatalog 5 [sampleConfirmItem] ⟨"completed", []⟩ =
        (.ok { success := true, items_created := [sampleConfirmItem].length, error := none },
         { receipt_status := "confirmed", inventory_rows := ([] : List InventoryRowInit) ++ rows }) ∧
      List.Forall₂ (fun (it : ConfirmedItemCreate) (row : InventoryRowInit) =>
        ∃ p, findProduct sampleCatalog it.product_id = some p ∧
          row.expiry_date = it.purchase_date + p.default_shelf_life_days ∧
          row.expiry_source = "calculated" ∧
          row.status = "sealed" ∧
          row.initial_quantity = it.quantity ∧
          row.current_quantity = it.quantity ∧
          row.unit = it.unit ∧
          row.purchase_date = it.purchase_date ∧
          row.receipt_id = some 5 ∧
          row.location = "main_fridge") [sampleConfirmItem] rows :=
  ⟨by decide, confirm_creates_calculated_rows sampleCatalog 5 [sampleConfirmItem]
    ⟨"completed", []⟩ (by decide)⟩

/-- If some requested product id is missing, the confirm loop raises an
HTTP 400 error. -/
theorem confirmLoop_error_of_missing (catalog : List ProductMaster) (rid : Nat)
    (items : List ConfirmedItemCreate)
    (h : ∃ it ∈ items, findProduct catalog it.product_id = none) :
    ∃ e, confirmLoop catalog rid items = .error e ∧ e.status_code = 400 := by
  induction items with
  | nil => obtain ⟨it, hmem, _⟩ := h; exact absurd hmem (List.not_mem_nil it)
  | cons hd rest ih =>
    obtain ⟨it, hmem, hnone⟩ := h
    rcases List.mem_cons.mp hmem with heq | hmem'
    · subst heq
      cases hfind : findProduct catalog it.product_id with
      | none =>
        exact ⟨⟨400, "Product " ++ toString it.product_id ++ " not found"⟩,
          by simp only [confirmLoop, hfind], rfl⟩
      | some p => exact absurd (hfind.symm.trans hnone) (by simp)
    · cases hfind : findProduct catalog hd.product_id with
      | none =>
        exact ⟨⟨400, "Product " ++ toString hd.product_id ++ " not found"⟩,
          by simp only [confirmLoop, hfind], rfl⟩
      | some p =>
        obtain ⟨e, he, hcode⟩ := ih ⟨it, hmem', hnone⟩
        exact ⟨e, by simp only [confirmLoop, hfind, he], hcode⟩

/-- C6: if any referenced product id is missing from the catalog, the whole
confirmation aborts with an HTTP 400 error and the committed database state
is untouched: the receipt is not flipped to `confirmed` and no inventory row
from the request is committed. -/
theorem confirm_aborts_on_missing_product (catalog : List ProductMaster) (rid : Nat)
    (items : List ConfirmedItemCreate) (st : DBState)
    (h : ∃ it ∈ items, findProduct catalog it.product_id = none) :
    ∃ e, confirm_receipt catalog rid items st = (.error e, st) ∧ e.status_code = 400 := by
  obtain ⟨e, he, hcode⟩ := confirmLoop_error_of_missing catalog rid items h
  exact ⟨e, by simp only [confirm_receipt, he], hcode⟩

/-- Witness for `confirm_aborts_on_missing_product`: a request referencing
the absent product id 99 leaves the state `⟨"completed", []⟩` intact. -/
theorem confirm_aborts_on_missing_product_witness :
    (∃ it ∈ [{ product_id := 99, quantity := 1, unit := "pcs", purchase_date := 100 :
        ConfirmedItemCreate }], findProduct sampleCatalog it.product_id = none) ∧
    ∃ e, confirm_receipt sampleCatalog 5
        [{ product_id := 99, quantity := 1, unit := "pcs", purchase_date := 100 }]
        ⟨"completed", []⟩ = (.error e, ⟨"completed", []⟩) ∧ e.status_code = 400 :=
  ⟨⟨_, List.mem_singleton.mpr rfl, by decide⟩,
    confirm_aborts_on_missing_product sampleCatalog 5 _ ⟨"completed", []⟩
      ⟨_, List.mem_singleton.mpr rfl, by decide⟩⟩

/-- Counterexample to C9: confirming an empty item list against a receipt in
state `completed` returns success with zero items created, but the receipt's
`processing_status` is mutated to `confirmed`, so the receipt's state is not
left unchanged. -/
theorem confirm_empty_counterexample :
    confirm_receipt [] 1 [] ⟨"completed", []⟩ =
      (.ok { success := true, items_created := 0, error := none },
       ⟨"confirmed", []⟩) ∧
    ("confirmed" : String) ≠ "completed" :=
  ⟨rfl, by decide⟩

/-- C9 (amended): confirming with an empty approved-items list succeeds with
`success = true`, `items_created = 0` and no error, and creates no inventory
item, but it does mutate the receipt: `processing_status` is set to
`confirmed` and committed. -/
theorem confirm_empty_success (catalog : List ProductMaster) (rid : Nat) (st : DBState) :
    confirm_receipt catalog rid [] st =
      (.ok { success := true, items_created := 0, error := none },
       { receipt_status := "confirmed", inventory_rows := st.inventory_rows }) := by
  simp only [confirm_receipt, confirmLoop, List.length_nil, List.append_nil]

/-- Helper for `pySplit`: walk the characters, accumulating the current
token (reversed), emitting a token at each whitespace run boundary. -/
def splitWsAux : List Char → List Char → List (List Char)
  | [], acc => if acc = [] then [] else [acc.reverse]
  | c :: cs, acc =>
    if c.isWhitespace then
      if acc = [] then splitWsAux cs []
      else acc.reverse :: splitWsAux cs []
    else splitWsAux cs (c :: acc)

/-- Python's no-argument `str.split()`: split on whitespace runs, dropping
empty pieces. -/
def pySplit (s : String) : List String :=
  (splitWsAux s.data []).map String.mk

/-- Python's no-argument `str.strip()`: drop leading and trailing
whitespace. -/
def pyStrip (s : String) : String :=
  String.mk (((s.data.dropWhile Char.isWhitespace).reverse.dropWhile
    Char.isWhitespace).reverse)

/-- Python's `str.lower()` (restricted to the ASCII case mapping). -/
def pyLower (s : String) : String :=
  String.mk (s.data.map Char.toLower)

/-- The normalization used by the matching service
(src/backend/app/services/matching_service.py, lines 85 and 87):
the space-joined, lowercased, whitespace-collapsed form of the name,
`" ".join(name.lower().split())`. -/
def normalizeName (s : String) : String :=
  String.mk (List.intercalate [' '] ((pySplit (pyLower s)).map String.data))

/-- The `MatchConfidence` enum of the matching service. -/
inductive MatchConfidence
  | EXACT
  | HIGH
  | MEDIUM
  | LOW
deriving Repr, DecidableEq

/-- The `MatchResult` dataclass of the matching service. -/
structure MatchResult where
  product : ProductMaster
  score : ℚ
  confidence : MatchConfidence
deriving Repr, DecidableEq

/-- Embedding of `MatchingService._calculate_confidence`
(matching_service.py, lines 205-221), with the class thresholds
EXACT=100, HIGH=75, MEDIUM=60 inlined. -/
def calculate_confidence (score : ℚ) : MatchConfidence :=
  if score ≥ 100 then .EXACT
  else if score ≥ 75 then .HIGH
  else if score ≥ 60 then .MEDIUM
  else .LOW

/-- Model of `rapidfuzz.process.extractOne` with a score cutoff over an
abstract scorer: the choice with the highest score at or above the cutoff
(the earlier choice winning ties), or `none` when every score is below the
cutoff. -/
def extractOne (score : String → ℚ) (cutoff : ℚ) :
    List String → Option (String × ℚ)
  | [] => none
  | c :: rest =>
    let s := score c
    match extractOne score cutoff rest with
    | none => if s ≥ cutoff then some (c, s) else none
    | some (c', s') =>
      if s ≥ cutoff then
        if s' > s then some (c', s') else some (c, s)
      else some (c', s')

/-- The dict comprehension `{p.canonical_name: p for p in products}` followed
by lookup: for duplicate canonical names the later product wins. -/
def productMap (products : List ProductMaster) (name : String) : Option ProductMaster :=
  products.reverse.find? (fun p => p.canonical_name = name)

/-- Embedding of `MatchingService.match_product` (matching_service.py, lines
55-130), with the fuzzy scorer (`fuzz.WRatio`) abstract: strip the input,
return `none` on an empty name or catalog, short-circuit on a normalized
exact match with score 100 and tier EXACT, otherwise take the best fuzzy
score at or above `min_score` and derive the tier from it. -/
def match_product (scorer : String → String → ℚ) (products : List ProductMaster)
    (product_name : String) (min_score : ℚ) : Option MatchResult :=
  let name := pyStrip product_name
  if name = "" then none
  else if products.isEmpty then none
  else
    let norm := normalizeName name
    match products.find? (fun p => normalizeName p.canonical_name = norm) with
    | some p => some ⟨p, 100, .EXACT⟩
    | none =>
      match extractOne (scorer name) min_score (products.map (fun p => p.canonical_name)) with
      | none => none
      | some (matched_name, score) =>
        match productMap products matched_name with
        | none => none
        | some p => some ⟨p, score, calculate_confidence score⟩

/-- `extractOne` yields nothing when every choice scores below the cutoff. -/
theorem extractOne_eq_none_of_all_lt (score : String → ℚ) (cutoff : ℚ)
    (choices : List String) (h : ∀ c ∈ choices, score c < cutoff) :
    extractOne score cutoff choices = none := by
  induction choices with
  | nil => rfl
  | cons c rest ih =>
    have hc : ¬ score c ≥ cutoff := not_le.mpr (h c (List.mem_cons_self c rest))
    have ht : extractOne score cutoff rest = none :=
      ih (fun x hx => h x (List.mem_cons_of_mem c hx))
    simp only [extractOne, ht, if_neg hc]

/-- C4: the confidence tier is a fixed threshold function of the score
(≥100 → EXACT, [75,100) → HIGH, [60,75) → MEDIUM, [50,60) → LOW), every
result returned by `match_product` carries the tier derived from its score,
and when no catalog name matches exactly and every fuzzy score is below the
caller's minimum, `match_product` returns no match at all. -/
theorem matching_tier_thresholds (s : ℚ) (scorer : String → String → ℚ)
    (products : List ProductMaster) (name : String) (minScore : ℚ) :
    (100 ≤ s → calculate_confidence s = .EXACT) ∧
    (75 ≤ s → s < 100 → calculate_confidence s = .HIGH) ∧
    (60 ≤ s → s < 75 → calculate_confidence s = .MEDIUM) ∧
    (50 ≤ s → s < 60 → calculate_confidence s = .LOW) ∧
    (∀ r, match_product scorer products name minScore = some r →
      r.confidence = calculate_confidence r.score) ∧
    ((∀ p ∈ products, normalizeName p.canonical_name ≠ normalizeName (pyStrip name)) →
     (∀ p ∈ products, scorer (pyStrip name) p.canonical_name < minScore) →
     match_product scorer products name minScore = none) := by
  refine ⟨?_, ?_, ?_, ?_, ?_, ?_⟩
  · intro h
    unfold calculate_confidence
    rw [if_pos h]
  · intro h1 h2
    unfold calculate_confidence
    rw [if_neg (not_le.mpr h2), if_pos h1]
  · intro h1 h2
    unfold calculate_confidence
    rw [if_neg (not_le.mpr (h2.trans_le (by norm_num))),
      if_neg (not_le.mpr h2), if_pos h1]
  · intro h1 h2
    unfold calculate_confidence
    rw [if_neg (not_le.mpr (h2.trans_le (by norm_num))),
      if_neg (not_le.mpr (h2.trans_le (by norm_num))),
      if_neg (not_le.mpr h2)]
  · intro r hr
    simp only [match_product] at hr
    split_ifs at hr
    split at hr
    · rename_i p hp
      have : ({ product := p, score := 100, confidence := .EXACT } : MatchResult) = r :=
        Option.some.inj hr
      rw [← this]
      norm_num [calculate_confidence]
    · split at hr
      · simp at hr
      · split at hr
        · simp at hr
        · rename_i mn sc hsc p hp
          have := Option.some.inj hr
          rw [← this]
  · intro hnoexact hlow
    simp only [match_product]
    split_ifs with h1 h2
    · rfl
    · rfl
    · have hfind : products.find?
          (fun p => normalizeName p.canonical_name = normalizeName (pyStrip name)) = none := by
        rw [List.find?_eq_none]
        intro p hp
        simp only [decide_eq_true_eq]
        exact hnoexact p hp
      have hext : extractOne (scorer (pyStrip name)) minScore
          (products.map (fun p => p.canonical_name)) = none := by
        apply extractOne_eq_none_of_all_lt
        intro c hc
        obtain ⟨p, hp, rfl⟩ := List.mem_map.mp hc
        exact hlow p hp
      simp only [hfind, hext]

/-- A scorer that gives every pair the same low score, for witnesses. -/
def lowScorer : String → String → ℚ := fun _ _ => 40

/-- Witness for `matching_tier_thresholds`: concrete scores land in each
tier, and a query scoring 40 everywhere against `sampleCatalog` with minimum
50 yields no match. -/
theorem matching_tier_thresholds_witness :
    calculate_confidence 100 = .EXACT ∧
    calculate_confidence 80 = .HIGH ∧
    calculate_confidence 60 = .MEDIUM ∧
    calculate_confidence 55 = .LOW ∧
    match_product lowScorer sampleCatalog "Cheese" 50 = none :=
  ⟨(matching_tier_thresholds 100 lowScorer sampleCatalog "Cheese" 50).1 (by norm_num),
   (matching_tier_thresholds 80 lowScorer sampleCatalog "Cheese" 50).2.1
     (by norm_num) (by norm_num),
   (matching_tier_thresholds 60 lowScorer sampleCatalog "Cheese" 50).2.2.1
     (by norm_num) (by norm_num),
   (matching_tier_thresholds 55 lowScorer sampleCatalog "Cheese" 50).2.2.2.1
     (by norm_num) (by norm_num),
   (matching_tier_thresholds 55 lowScorer sampleCatalog "Cheese" 50).2.2.2.2.2
     (by decide) (by decide)⟩

/-- A catalog whose single entry's canonical name is whitespace-only. -/
def blankCatalog : List ProductMaster :=
  [{ id := 1, canonical_name := " ", default_shelf_life_days := 7 }]

/-- A scorer that gives every pair the maximal score, for counterexamples:
even it cannot make `match_product` return a result here. -/
def topScorer : String → String → ℚ := fun _ _ => 100

/-- Counterexample to C5: the catalog name `" "` is present in the catalog,
yet matching it returns no match at all (the input is stripped to the empty
string and rejected), not that entry with score 100 and tier EXACT. -/
theorem exact_match_counterexample :
    (∃ p ∈ blankCatalog, p.canonical_name = " ") ∧
    match_product topScorer blankCatalog " " 50 = none := by
  constructor
  · exact ⟨_, List.mem_singleton.mpr rfl, rfl⟩
  · decide

/-- C5 (amended): for every catalog entry whose name is not whitespace-only,
matching any variant of that name agreeing after normalization (lowercasing
and whitespace collapsing) short-circuits the fuzzy scorer — the result does
not depend on the scorer — and returns score 100 and tier EXACT with a
catalog entry of the same normalized name; when no two catalog entries share
a normalized name, it is exactly the entry asked for. -/
theorem exact_match_fast_path (scorer : String → String → ℚ)
    (products : List ProductMaster) (p : ProductMaster) (v : String) (minScore : ℚ)
    (hp : p ∈ products)
    (hv : normalizeName (pyStrip v) = normalizeName p.canonical_name)
    (hne : normalizeName p.canonical_name ≠ "") :
    ∃ q, match_product scorer products v minScore = some ⟨q, 100, .EXACT⟩ ∧
      normalizeName q.canonical_name = normalizeName p.canonical_name ∧
      (products.Pairwise (fun a b =>
          normalizeName a.canonical_name ≠ normalizeName b.canonical_name) →
        q = p) := by
  have hvs : pyStrip v ≠ "" := by
    intro h
    rw [h] at hv
    exact hne hv.symm
  have hempty : products.isEmpty = false := by
    cases products with
    | nil => exact absurd hp (List.not_mem_nil p)
    | cons a l => rfl
  have hsome : (products.find? (fun q =>
      normalizeName q.canonical_name = normalizeName (pyStrip v))).isSome := by
    rw [List.find?_isSome]
    exact ⟨p, hp, by simp only [decide_eq_true_eq]; exact hv.symm⟩
  obtain ⟨q, hfind⟩ := Option.isSome_iff_exists.mp hsome
  have hqnorm : normalizeName q.canonical_name = normalizeName (pyStrip v) := by
    have := List.find?_some hfind
    simpa only [decide_eq_true_eq] using this
  have hqmem : q ∈ products := List.mem_of_find?_eq_some hfind
  refine ⟨q, ?_, hqnorm.trans hv, ?_⟩
  · simp only [match_product, if_neg hvs, hempty, Bool.false_eq_true, if_false, hfind]
  · intro hpw
    by_contra hqp
    have hsymm : Symmetric (fun a b : ProductMaster =>
        normalizeName a.canonical_name ≠ normalizeName b.canonical_name) :=
      fun a b h e => h e.symm
    exact List.Pairwise.forall hsymm hpw hqmem hp hqp (hqnorm.trans hv)

/-- Witness for `exact_match_fast_path`: the query `"  MILK "` hits the
catalog entry `"Milk"` exactly, for any scorer. -/
theorem exact_match_fast_path_witness :
    ((sampleCatalog.head?.getD ⟨0, "", 0⟩) ∈ sampleCatalog) ∧
    normalizeName (pyStrip "  MILK ") =
      normalizeName (sampleCatalog.head?.getD ⟨0, "", 0⟩).canonical_name ∧
    normalizeName (sampleCatalog.head?.getD ⟨0, "", 0⟩).canonical_name ≠ "" ∧
    ∃ q, match_product lowScorer sampleCatalog "  MILK " 50 = some ⟨q, 100, .EXACT⟩ ∧
      normalizeName q.canonical_name =
        normalizeName (sampleCatalog.head?.getD ⟨0, "", 0⟩).canonical_name ∧
      (sampleCatalog.Pairwise (fun a b =>
          normalizeName a.canonical_name ≠ normalizeName b.canonical_name) →
        q = sampleCatalog.head?.getD ⟨0, "", 0⟩) :=
  ⟨by decide, by decide, by decide,
    exact_match_fast_path lowScorer sampleCatalog _ "  MILK " 50
      (by decide) (by decide) (by decide)⟩

/-- Embedding of `ParsedProduct` (src/backend/app/parsers/base.py). -/
structure ParsedProduct where
  name : String
  name_en : Option String
  quantity : ℚ
  weight_kg : Option ℚ
  volume_l : Option ℚ
  unit : String
  price : Option ℚ
deriving Repr, DecidableEq

/-- Embedding of `StoreInfo` (parsers/base.py). -/
structure StoreInfo where
  name : Option String
  chain : Option String
  country : Option String
  language : Option String
  currency : Option String
deriving Repr, DecidableEq

/-- Embedding of `ReceiptExtraction` (parsers/base.py): the validated LLM
output consumed by the orchestrator. -/
structure ReceiptExtraction where
  store : StoreInfo
  products : List ParsedProduct
  confidence : Option ℚ
deriving Repr, DecidableEq

/-- Embedding of the `Receipt` row (src/backend/app/models/receipt.py),
restricted to the fields `process_receipt` reads or writes. -/
structure Receipt where
  id : Nat
  store_chain : Option String
  purchase_date : Option ℤ
  image_path : String
  ocr_raw_text : Option String
  ocr_structured : Option (StoreInfo × List ParsedProduct × Option ℚ)
  processing_status : String
  items_extracted : Nat
  items_matched : Nat
deriving Repr, DecidableEq

/-- Embedding of the `ProcessingResult` dataclass
(src/backend/app/services/receipt_processing.py). -/
structure ProcessingResult where
  success : Bool
  ocr_text : Option String
  extraction : Option ReceiptExtraction
  matched_products : List MatchResult
  error : Option String
deriving Repr, DecidableEq

/-- The three fallible pipeline steps of `process_receipt`, abstracted: the
OCR call, the LLM extraction on the OCR text, and the per-product matching
call (which may itself raise, e.g. on a database error); `.error`
models a raised exception with its message. -/
structure PipelineSteps where
  ocr : Except String String
  llm : String → Except String ReceiptExtraction
  matchStep : String → Except String (Option MatchResult)

/-- The matching loop of `process_receipt` (receipt_processing.py, lines
80-97): products are matched in order, unmatched products are skipped
(logged, not failed), and an exception aborts the loop. -/
def matchLoop (f : String → Except String (Option MatchResult)) :
    List ParsedProduct → Except String (List MatchResult)
  | [] => .ok []
  | p :: rest =>
    match f p.name with
    | .error e => .error e
    | .ok none => matchLoop f rest
    | .ok (some m) =>
      match matchLoop f rest with
      | .error e => .error e
      | .ok ms => .ok (m :: ms)

/-- The body of the `try` block of `process_receipt` up to the final
database writes: OCR, then LLM extraction, then matching, any step's
exception aborting the rest. -/
def runPipeline (steps : PipelineSteps) :
    Except String (String × ReceiptExtraction × List MatchResult) :=
  match steps.ocr with
  | .error e => .error e
  | .ok ocr_text =>
    match steps.llm ocr_text with
    | .error e => .error e
    | .ok extraction =>
      match matchLoop steps.matchStep extraction.products with
      | .error e => .error e
      | .ok matched => .ok (ocr_text, extraction, matched)

/-- Python truthiness of an optional string: `None` and `""` are falsy. -/
def strTruthy : Option String → Bool
  | none => false
  | some s => s ≠ ""

/-- Embedding of `ReceiptProcessingService.process_receipt`
(receipt_processing.py, lines 45-144), state-passing on the receipt row and
on the committed inventory rows (which the orchestrator never touches).  The
status is flipped to `processing` and committed first; any exception from
the pipeline steps is caught, the receipt is marked `failed`, and a
structured failure result is returned — the function is total, so nothing
propagates past its boundary.  On success the receipt is marked `completed`,
the raw text, structured payload and counts are stored, and a missing store
chain is backfilled from the extraction (Python truthiness: an empty string
counts as missing). -/
def process_receipt (steps : PipelineSteps) (receipt : Receipt)
    (inventory : List InventoryRowInit) :
    ProcessingResult × Receipt × List InventoryRowInit :=
  let receipt1 : Receipt := { receipt with processing_status := "processing" }
  match runPipeline steps with
  | .error e =>
    ({ success := false, ocr_text := none, extraction := none,
       matched_products := [], error := some ("Receipt processing failed: " ++ e) },
     { receipt1 with processing_status := "failed" }, inventory)
  | .ok (ocr_text, extraction, matched) =>
    let receipt2 : Receipt := { receipt1 with
      processing_status := "completed",
      ocr_raw_text := some ocr_text,
      ocr_structured := some (extraction.store, extraction.products, extraction.confidence),
      items_extracted := extraction.products.length,
      items_matched := matched.length }
    let receipt3 : Receipt :=
      if strTruthy extraction.store.chain && !strTruthy receipt2.store_chain then
        { receipt2 with store_chain := extraction.store.chain }
      else receipt2
    ({ success := true, ocr_text := some ocr_text, extraction := some extraction,
       matched_products := matched, error := none },
     receipt3, inventory)

/-- C7: whenever any of the pipeline steps (OCR, LLM extraction, matching)
raises, `process_receipt` catches it and returns a result with
`success = false` and a non-null descriptive error, the receipt ends with
`processing_status = "failed"`, and the inventory rows are untouched (no
inventory item is created); `process_receipt` is a total function, so it
never raises past its own boundary. -/
theorem process_receipt_failure_contained (steps : PipelineSteps)
    (receipt : Receipt) (inventory : List InventoryRowInit)
    (h : ∃ e, runPipeline steps = .error e) :
    (process_receipt steps receipt inventory).1.success = false ∧
    (process_receipt steps receipt inventory).1.error.isSome ∧
    (process_receipt steps receipt inventory).2.1.processing_status = "failed" ∧
    (process_receipt steps receipt inventory).2.2 = inventory := by
  obtain ⟨e, he⟩ := h
  simp [process_receipt, he]

/-- A pipeline whose OCR call throws, for the C7 witness. -/
def failingSteps : PipelineSteps :=
  { ocr := .error "OCR service unavailable",
    llm := fun _ => .ok { store := ⟨none, none, none, none, none⟩, products := [], confidence := none },
    matchStep := fun _ => .ok none }

/-- A freshly uploaded receipt, for witnesses. -/
def sampleReceipt : Receipt :=
  { id := 1, store_chain := none, purchase_date := none, image_path := "r.jpg",
    ocr_raw_text := none, ocr_structured := none, processing_status := "uploaded",
    items_extracted := 0, items_matched := 0 }

/-- Witness for `process_receipt_failure_contained`: an OCR failure ends the
receipt in `failed` with an error message and creates no inventory. -/
theorem process_receipt_failure_contained_witness :
    (∃ e, runPipeline failingSteps = .error e) ∧
    (process_receipt failingSteps sampleReceipt []).1.success = false ∧
    (process_receipt failingSteps sampleReceipt []).1.error.isSome ∧
    (process_receipt failingSteps sampleReceipt []).2.1.processing_status = "failed" ∧
    (process_receipt failingSteps sampleReceipt []).2.2 = [] :=
  ⟨⟨"OCR service unavailable", rfl⟩,
    process_receipt_failure_contained failingSteps sampleReceipt []
      ⟨"OCR service unavailable", rfl⟩⟩

/-- The `ValueError` raised by `extract_text_from_receipt` for an unknown
extension; the message interpolates the (unlowered) suffix. -/
inductive UnsupportedFileType
  | mk (suffix : String)
deriving Repr, DecidableEq

/-- One per-file entry of the MinerU JSON response: the optional
`md_content` markdown field. -/
structure MinerUDoc where
  md_content : Option String
deriving Repr, DecidableEq

/-- The MinerU response shape `{"results": {"<filename>": {"md_content":
...}}}`; the dict is modelled as an association list in insertion order. -/
structure MinerUResponse where
  results : List (String × MinerUDoc)
deriving Repr, DecidableEq

/-- The image extensions accepted by the OCR router
(src/backend/app/services/ocr_service.py, line 38). -/
def IMAGE_SUFFIXES : List String := [".jpg", ".jpeg", ".png", ".webp"]

/-- Embedding of the response handling of `_extract_from_image`
(ocr_service.py, lines 116-129): an empty result set yields `""`, otherwise
the first document's `md_content` with default `""`. -/
def extract_from_image (resp : MinerUResponse) : String :=
  match resp.results with
  | [] => ""
  | (_, doc) :: _ => doc.md_content.getD ""

/-- Embedding of `extract_text_from_receipt` (ocr_service.py, lines 16-42):
route on the lowercased file suffix — `.pdf` to the pdfplumber path (its
text given as `pdfText`), the four image suffixes to the MinerU path, and
anything else to an immediate `UnsupportedFileType` failure. -/
def extract_text_from_receipt (suffix : String) (pdfText : String)
    (resp : MinerUResponse) : Except UnsupportedFileType String :=
  if pyLower suffix = ".pdf" then .ok pdfText
  else if pyLower suffix ∈ IMAGE_SUFFIXES then .ok (extract_from_image resp)
  else .error (.mk suffix)

/-- C8: extraction fails exactly when the lowercased suffix is not one of
`.pdf`, `.jpg`, `.jpeg`, `.png`, `.webp`, and then with the
`UnsupportedFileType` error naming the suffix — no fallback; and on the
image path an empty or `md_content`-less OCR result set yields the empty
string as a valid zero-length extraction rather than an error. -/
theorem ocr_router_spec (suffix : String) (pdfText : String) (resp : MinerUResponse) :
    ((∃ e, extract_text_from_receipt suffix pdfText resp = .error e) ↔
      pyLower suffix ∉ ".pdf" :: IMAGE_SUFFIXES) ∧
    (pyLower suffix ∉ ".pdf" :: IMAGE_SUFFIXES →
      extract_text_from_receipt suffix pdfText resp = .error (.mk suffix)) ∧
    (resp.results = [] → extract_from_image resp = "") ∧
    (∀ fn doc rest, resp.results = (fn, doc) :: rest → doc.md_content = none →
      extract_from_image resp = "") := by
  refine ⟨⟨?_, ?_⟩, ?_, ?_, ?_⟩
  · rintro ⟨e, he⟩ hmem
    rcases List.mem_cons.mp hmem with hpdf | himg
    · rw [extract_text_from_receipt, if_pos hpdf] at he
      exact Except.noConfusion he
    · by_cases hpdf : pyLower suffix = ".pdf"
      · rw [extract_text_from_receipt, if_pos hpdf] at he
        exact Except.noConfusion he
      · rw [extract_text_from_receipt, if_neg hpdf, if_pos himg] at he
        exact Except.noConfusion he
  · intro hmem
    have hpdf : ¬ pyLower suffix = ".pdf" := fun h => hmem (h ▸ List.mem_cons_self _ _)
    have himg : pyLower suffix ∉ IMAGE_SUFFIXES :=
      fun h => hmem (List.mem_cons_of_mem _ h)
    exact ⟨.mk suffix, by rw [extract_text_from_receipt, if_neg hpdf, if_neg himg]⟩
  · intro hmem
    have hpdf : ¬ pyLower suffix = ".pdf" := fun h => hmem (h ▸ List.mem_cons_self _ _)
    have himg : pyLower suffix ∉ IMAGE_SUFFIXES :=
      fun h => hmem (List.mem_cons_of_mem _ h)
    rw [extract_text_from_receipt, if_neg hpdf, if_neg himg]
  · intro h
    rw [extract_from_image, h]
  · intro fn doc rest h hdoc
    rw [extract_from_image, h]
    simp only [hdoc]
    rfl

/-- Witness for `ocr_router_spec`: the suffix `.TXT` is rejected, and an
empty MinerU result set extracts to `""`. -/
theorem ocr_router_spec_witness :
    ((∃ e, extract_text_from_receipt ".TXT" "text" ⟨[]⟩ = .error e) ↔
      pyLower ".TXT" ∉ ".pdf" :: IMAGE_SUFFIXES) ∧
    (pyLower ".TXT" ∉ ".pdf" :: IMAGE_SUFFIXES →
      extract_text_from_receipt ".TXT" "text" ⟨[]⟩ = .error (.mk ".TXT")) ∧
    (MinerUResponse.results ⟨[]⟩ = [] → extract_from_image ⟨[]⟩ = "") ∧
    (∀ fn doc rest, MinerUResponse.results ⟨[]⟩ = (fn, doc) :: rest →
      doc.md_content = none → extract_from_image ⟨[]⟩ = "") ∧
    extract_text_from_receipt ".TXT" "text" ⟨[]⟩ = .error (.mk ".TXT") :=
  ⟨(ocr_router_spec ".TXT" "text" ⟨[]⟩).1,
   (ocr_router_spec ".TXT" "text" ⟨[]⟩).2.1,
   (ocr_router_spec ".TXT" "text" ⟨[]⟩).2.2.1,
   (ocr_router_spec ".TXT" "text" ⟨[]⟩).2.2.2,
   (ocr_router_spec ".TXT" "text" ⟨[]⟩).2.1 (by decide)⟩

end Kyokki
